import Mathlib

/-
Verification of the sync scheduling and orchestration subsystem of the
YouTube Channel Archiver backend.

The embedding below is a shallow model of:
  backend/src/services/scheduler.js  (class Scheduler)
  backend/src/routes/sync.js         (progress and cancel handlers)
  backend/src/routes/channels.js     (PUT /:id handler)
The database is modelled as in-memory lists mirroring the channel and
sync_log tables; the external fetch/download pipeline
(SyncService.incrementalSync / fullSync) is an opaque parameter that may
update the database and either resolves with a value or rejects with an
error message, exactly as the scheduler observes it through await.
-/

namespace YTArchiver

/-- Sync mode: the syncType string, either incremental or full. -/
inductive SyncMode where
  | incremental
  | full
deriving DecidableEq

/-- The status column of a sync_log row. -/
inductive RunStatus where
  | running
  | completed
  | failed
  | cancelled
deriving DecidableEq

/-- One row of the sync_log table. -/
structure RunRecord where
  run_id : Nat
  channel_id : String
  mode : SyncMode
  status : RunStatus
  started_at : Nat
  completed_at : Option Nat
  errors : Option String
deriving DecidableEq

/-- One row of the channel table (the columns this subsystem reads). -/
structure Channel where
  id : String
  sync_schedule : Option String
  api_key : String
  sync_enabled : Bool
deriving DecidableEq

/-- The relational store as seen by this subsystem. -/
structure DB where
  channels : List Channel
  sync_log : List RunRecord
deriving DecidableEq

/-- Models the query SELECT ... FROM channel WHERE id = $1 followed by
reading rows[0]: the first channel bearing the identifier, if any. -/
def findChannel (db : DB) (channelId : String) : Option Channel :=
  db.channels.find? (fun ch => ch.id == channelId)

/-- Models SELECT ... FROM channel WHERE sync_enabled = true, preserving
store order. -/
def enabledChannels (db : DB) : List Channel :=
  db.channels.filter (fun ch => ch.sync_enabled)

/-- A cron job handle as installed by cron.schedule in
Scheduler.registerChannel. The callback closure captures the channel id
and the api_key read from the database at registration time. -/
structure Job where
  handle : Nat
  channelId : String
  cronTime : String
  apiKey : String
deriving DecidableEq

/-- The mutable state of the Scheduler object: this.jobs (a Map keyed by
channel id), the set of handles whose stop() has been invoked, and a
fresh-handle counter. -/
structure SchedState where
  jobs : List (String × Job)
  stopped : List Nat
  nextHandle : Nat
deriving DecidableEq

/-- Models this.jobs.get(k) / this.jobs.has(k). -/
def lookupJob : List (String × Job) → String → Option Job
  | [], _ => none
  | p :: ps, k => if p.1 == k then some p.2 else lookupJob ps k

/-- Models this.jobs.set(k, v): replace the entry at the key, else append. -/
def setJob : List (String × Job) → String → Job → List (String × Job)
  | [], k, v => [(k, v)]
  | p :: ps, k, v => if p.1 == k then (k, v) :: ps else p :: setJob ps k v

/-- Models this.jobs.delete(k). -/
def delJob (jobs : List (String × Job)) (k : String) : List (String × Job) :=
  jobs.filter (fun p => p.1 != k)

/-- Number of entries armed for a key (a JS Map holds at most one, but the
model keeps a list so the count is a provable fact, not an assumption). -/
def countKey (jobs : List (String × Job)) (k : String) : Nat :=
  (jobs.filter (fun p => p.1 == k)).length

/-- JS truthiness of channel.sync_schedule || DEFAULT: null/undefined and
the empty string are falsy, so both fall back to the default. -/
def jsOrDefault (s : Option String) (d : String) : String :=
  match s with
  | none => d
  | some "" => d
  | some x => x

/-- Scheduler.registerChannel(channelId): load the channel; missing or
disabled channels are a silent no-op; otherwise stop any existing job for
the id and install a fresh cron job built from sync_schedule (defaulting
to the daily 0 2 * * * expression), whose closure captures api_key. -/
def registerChannel (db : DB) (st : SchedState) (channelId : String) : SchedState :=
  match findChannel db channelId with
  | none => st
  | some ch =>
    if !ch.sync_enabled then st
    else
      let st1 :=
        match lookupJob st.jobs channelId with
        | some j => { st with stopped := j.handle :: st.stopped }
        | none => st
      let cronTime := jsOrDefault ch.sync_schedule "0 2 * * *"
      let job : Job :=
        { handle := st1.nextHandle, channelId := channelId,
          cronTime := cronTime, apiKey := ch.api_key }
      { st1 with jobs := setJob st1.jobs channelId job,
                 nextHandle := st1.nextHandle + 1 }

/-- Scheduler.unregisterChannel(channelId): stop and remove the job if
present, else a no-op. -/
def unregisterChannel (st : SchedState) (channelId : String) : SchedState :=
  match lookupJob st.jobs channelId with
  | some j =>
      { st with stopped := j.handle :: st.stopped,
                jobs := delJob st.jobs channelId }
  | none => st

/-- Scheduler.updateChannel(channelId): unregister then register. -/
def updateChannel (db : DB) (st : SchedState) (channelId : String) : SchedState :=
  registerChannel db (unregisterChannel st channelId) channelId

/-- Models Scheduler.initialize(): reads the enabled channels and calls
registerChannel for each, in store order. -/
def initAllChannels (db : DB) (st : SchedState) : SchedState :=
  (enabledChannels db).foldl (fun s ch => registerChannel db s ch.id) st

/-- The Scheduler constructor state: this.jobs = new Map(). -/
def initialSchedState : SchedState :=
  { jobs := [], stopped := [], nextHandle := 0 }

/-- The external fetch/download pipeline (SyncService.incrementalSync or
fullSync), as the scheduler observes it: given mode, channel id and api
key it may update the database and either resolves with a value or
rejects with an error message. -/
def Pipeline (α : Type) : Type :=
  SyncMode → String → String → DB → DB × Except String α

/-- The cron callback installed by Scheduler.registerChannel: awaits
incrementalSync with the captured channel id and api key inside a
try/catch whose catch branch only logs; the jobs map is never touched. -/
def fireTrigger {α : Type} (pipeline : Pipeline α) (job : Job) (db : DB)
    (st : SchedState) : DB × SchedState :=
  match pipeline SyncMode.incremental job.channelId job.apiKey db with
  | (db1, Except.ok _) => (db1, st)
  | (db1, Except.error _) => (db1, st)

/-- Result of Scheduler.triggerManualSync: the all-channels branch returns
the count of collected results, the single-channel branch returns the
pipeline value. -/
inductive ManualResult (α : Type) where
  | all (channels : Nat)
  | single (r : α)
deriving DecidableEq

/-- The loop of the all-channels branch of triggerManualSync: awaits the
pipeline for each channel in order, pushing results; a rejection escapes
the loop (there is no per-iteration catch) and reaches the outer catch,
which rethrows. -/
def syncAll {α : Type} (pipeline : Pipeline α) (mode : SyncMode) :
    List Channel → DB → DB × Except String Nat
  | [], db => (db, Except.ok 0)
  | ch :: rest, db =>
    match pipeline mode ch.id ch.api_key db with
    | (db1, Except.ok _) =>
      match syncAll pipeline mode rest db1 with
      | (db2, Except.ok n) => (db2, Except.ok (n + 1))
      | (db2, Except.error e) => (db2, Except.error e)
    | (db1, Except.error e) => (db1, Except.error e)

/-- Observation of the same loop: which channel ids the pipeline is
actually invoked for, in order, before the loop ends or escapes. -/
def attemptedIds {α : Type} (pipeline : Pipeline α) (mode : SyncMode) :
    List Channel → DB → List String
  | [], _ => []
  | ch :: rest, db =>
    match pipeline mode ch.id ch.api_key db with
    | (db1, Except.ok _) => ch.id :: attemptedIds pipeline mode rest db1
    | (_, Except.error _) => [ch.id]

/-- Scheduler.triggerManualSync(syncType, channelId): with no channel id,
run the loop over the enabled channels and report the count; with a
channel id, look the channel up with no enabled filter, throw not-found
when absent, else run the pipeline once and return its outcome (the outer
catch rethrows every error). -/
def triggerManualSync {α : Type} (pipeline : Pipeline α) (syncType : SyncMode)
    (channelId : Option String) (db : DB) :
    DB × Except String (ManualResult α) :=
  match channelId with
  | none =>
    match syncAll pipeline syncType (enabledChannels db) db with
    | (db1, Except.ok n) => (db1, Except.ok (ManualResult.all n))
    | (db1, Except.error e) => (db1, Except.error e)
  | some cid =>
    match findChannel db cid with
    | none => (db, Except.error ("Channel " ++ cid ++ " not found"))
    | some ch =>
      match pipeline syncType ch.id ch.api_key db with
      | (db1, Except.ok r) => (db1, Except.ok (ManualResult.single r))
      | (db1, Except.error e) => (db1, Except.error e)

/-- The process-wide cancellation state held by the sync service. -/
structure CancellationRegistry where
  flags : List String
  allRequested : Bool
deriving DecidableEq

/-- Modelled from the spec: SyncService.cancelSync (the file
backend/src/services/sync.js is not present in the tree). Spec section 4.2:
a cancellation request sets the flag(s) in CancellationRegistry and does
not itself touch RunRecord state; with an entity id it records that
entity, with none it records the all-entities intent (requestAll). -/
def cancelSync (channelId : Option String) (reg : CancellationRegistry) :
    CancellationRegistry :=
  match channelId with
  | some cid => { reg with flags := cid :: reg.flags }
  | none => { reg with allRequested := true }

/-- The SET clause of the cancel handler UPDATE: status cancelled,
completed_at stamped, errors set to the fixed message. -/
def cancelRecord (now : Nat) (r : RunRecord) : RunRecord :=
  { r with status := RunStatus.cancelled,
           completed_at := some now,
           errors := some "Cancelled by user" }

/-- POST /api/sync/cancel handler: set the cancellation flag through
cancelSync, then UPDATE sync_log rows still in status running — scoped to
the given channel id when one is in the body, all channels otherwise. -/
def cancelHandler (now : Nat) (channelId : Option String)
    (reg : CancellationRegistry) (db : DB) : CancellationRegistry × DB :=
  let reg1 := cancelSync channelId reg
  let log1 :=
    match channelId with
    | some cid =>
      db.sync_log.map (fun r =>
        if r.channel_id == cid && r.status == RunStatus.running then
          cancelRecord now r
        else r)
    | none =>
      db.sync_log.map (fun r =>
        if r.status == RunStatus.running then cancelRecord now r else r)
  (reg1, { db with sync_log := log1 })

/-- A generated run identifier larger than every existing one (SERIAL). -/
def freshRunId (db : DB) : Nat :=
  (db.sync_log.map (fun r => r.run_id)).foldl Nat.max 0 + 1

/-- Modelled from the spec: the run-entry step of SyncService
incrementalSync / fullSync (backend/src/services/sync.js is not present in
the tree). The note in spec section 4.2 records the observed source
behavior: the source does not perform the already-running check
explicitly, and a manual trigger and a scheduled trigger can legitimately
race — so on invocation a RunRecord in state running is inserted
unconditionally, with no rejection path. -/
def orchestratorEntry (db : DB) (channelId : String) (mode : SyncMode)
    (now : Nat) : DB :=
  { db with sync_log := db.sync_log ++
      [ { run_id := freshRunId db, channel_id := channelId, mode := mode,
          status := RunStatus.running, started_at := now,
          completed_at := none, errors := none } ] }

/-- The sync_log rows in state running for a given entity. -/
def runningFor (db : DB) (channelId : String) : List RunRecord :=
  db.sync_log.filter (fun r =>
    r.channel_id == channelId && r.status == RunStatus.running)

/-- Insertion step of ORDER BY started_at DESC. -/
def insertByStartedDesc (r : RunRecord) : List RunRecord → List RunRecord
  | [] => [r]
  | x :: xs =>
    if r.started_at ≤ x.started_at then x :: insertByStartedDesc r xs
    else r :: x :: xs

/-- ORDER BY started_at DESC over a row set. -/
def sortByStartedDesc : List RunRecord → List RunRecord
  | [] => []
  | x :: xs => insertByStartedDesc x (sortByStartedDesc xs)

/-- The JSON shape returned by GET /api/sync/progress. -/
structure ProgressResponse where
  running : Bool
  sync : Option RunRecord
deriving DecidableEq

/-- GET /api/sync/progress handler: SELECT * FROM sync_log WHERE status =
running ORDER BY started_at DESC LIMIT 1; answer running = false on an
empty row set, else running = true with that single row. The route reads
no entity identifier. -/
def progressHandler (db : DB) : ProgressResponse :=
  match sortByStartedDesc
      (db.sync_log.filter (fun r => r.status == RunStatus.running)) with
  | [] => { running := false, sync := none }
  | r :: _ => { running := true, sync := some r }

/-- The records a progress response carries (zero or one). -/
def responseRecords (resp : ProgressResponse) : List RunRecord :=
  match resp.sync with
  | some r => [r]
  | none => []

/-- The body of PUT /api/channels/:id — each field is present or absent. -/
structure ChannelPatch where
  syncEnabled : Option Bool
  syncSchedule : Option String
  apiKey : Option String
deriving DecidableEq

/-- The dynamically built SET clause of the PUT handler applied to one
channel row: only the present fields are written. -/
def applyPatch (p : ChannelPatch) (ch : Channel) : Channel :=
  let c1 := match p.syncEnabled with
    | some b => { ch with sync_enabled := b }
    | none => ch
  let c2 := match p.syncSchedule with
    | some s => { c1 with sync_schedule := some s }
    | none => c1
  match p.apiKey with
  | some k => { c2 with api_key := k }
  | none => c2

/-- Outcome of the PUT handler, mirroring its three response paths. -/
inductive PutOutcome where
  | notFound
  | noFields
  | updated
deriving DecidableEq

/-- PUT /api/channels/:id handler: 404 when the channel does not exist,
400 when no field is present; otherwise update the row and call
scheduler.updateChannel only when syncEnabled or syncSchedule was in the
body — an apiKey-only body skips the scheduler entirely. -/
def putChannel (db : DB) (st : SchedState) (id : String) (p : ChannelPatch) :
    DB × SchedState × PutOutcome :=
  match findChannel db id with
  | none => (db, st, PutOutcome.notFound)
  | some _ =>
    if p.syncEnabled.isNone && p.syncSchedule.isNone && p.apiKey.isNone then
      (db, st, PutOutcome.noFields)
    else
      let db1 : DB :=
        { db with channels := db.channels.map (fun ch =>
            if ch.id == id then applyPatch p ch else ch) }
      let st1 :=
        if p.syncEnabled.isSome || p.syncSchedule.isSome then
          updateChannel db1 st id
        else st
      (db1, st1, PutOutcome.updated)

/-! Concrete fixtures used by witnesses and counterexamples. -/

/-- An enabled channel with no configured schedule. -/
def chA : Channel := { id := "A", sync_schedule := none, api_key := "keyA", sync_enabled := true }

/-- An enabled channel with a configured schedule. -/
def chB : Channel := { id := "B", sync_schedule := some "0 3 * * *", api_key := "keyB", sync_enabled := true }

/-- An enabled channel whose schedule is the empty string. -/
def chC : Channel := { id := "C", sync_schedule := some "", api_key := "keyC", sync_enabled := true }

/-- A channel with the enabled flag off. -/
def chD : Channel := { id := "D", sync_schedule := some "0 4 * * *", api_key := "keyD", sync_enabled := false }

/-- A run still in state running for channel A. -/
def recA1 : RunRecord :=
  { run_id := 1, channel_id := "A", mode := SyncMode.incremental,
    status := RunStatus.running, started_at := 10, completed_at := none, errors := none }

/-- A second, later run in state running for channel A. -/
def recA2 : RunRecord :=
  { run_id := 2, channel_id := "A", mode := SyncMode.full,
    status := RunStatus.running, started_at := 20, completed_at := none, errors := none }

/-- A terminal (completed) run for channel B. -/
def recB1 : RunRecord :=
  { run_id := 3, channel_id := "B", mode := SyncMode.incremental,
    status := RunStatus.completed, started_at := 5, completed_at := some 6, errors := none }

/-- Store with three enabled channels and one disabled one, empty log. -/
def dbABC : DB := { channels := [chA, chB, chC, chD], sync_log := [] }

/-- Store with a running record for A and a completed one for B. -/
def dbRun : DB := { channels := [chA, chD], sync_log := [recA1, recB1] }

/-- Store whose log holds two running records for channel A. -/
def dbTwoRunning : DB := { channels := [chA], sync_log := [recA1, recB1, recA2] }

/-- A job as armed for channel A in the fixtures. -/
def jobA0 : Job := { handle := 0, channelId := "A", cronTime := "0 9 * * *", apiKey := "oldkeyA" }

/-- Scheduler state holding one armed job for channel A. -/
def stForA : SchedState := { jobs := [("A", jobA0)], stopped := [], nextHandle := 1 }

/-- A pipeline that always resolves, touching nothing. -/
def okPipe : Pipeline Nat := fun _ _ _ db => (db, Except.ok 7)

/-- A pipeline that always rejects, touching nothing. -/
def failPipe : Pipeline Nat := fun _ _ _ db => (db, Except.error "boom")

/-- A pipeline that rejects exactly on channel B. -/
def failBPipe : Pipeline Nat := fun _ cid _ db =>
  if cid == "B" then (db, Except.error "boom") else (db, Except.ok 1)

/-- An empty cancellation registry. -/
def reg0 : CancellationRegistry := { flags := [], allRequested := false }

/-- The PUT body that carries only a new api key. -/
def apiKeyPatch (k : String) : ChannelPatch :=
  { syncEnabled := none, syncSchedule := none, apiKey := some k }

/-! Helper lemmas about the jobs map. -/

theorem lookupJob_setJob_self (jobs : List (String × Job)) (k : String) (v : Job) :
    lookupJob (setJob jobs k v) k = some v := by
  induction jobs with
  | nil => simp [setJob, lookupJob]
  | cons p ps ih =>
    by_cases h : p.1 = k
    · simp [setJob, h, lookupJob]
    · simp [setJob, h, lookupJob, ih]

theorem lookupJob_setJob_ne (jobs : List (String × Job)) (k k2 : String) (v : Job)
    (hne : k2 ≠ k) : lookupJob (setJob jobs k v) k2 = lookupJob jobs k2 := by
  have hne2 : ¬k = k2 := fun h => hne h.symm
  induction jobs with
  | nil => simp [setJob, lookupJob, hne2]
  | cons p ps ih =>
    by_cases h : p.1 = k
    · simp [setJob, h, lookupJob, hne2]
    · simp [setJob, h, lookupJob, ih]

theorem lookupJob_setJob_some (jobs : List (String × Job)) (k k2 : String)
    (v j : Job) (h : lookupJob (setJob jobs k v) k2 = some j) :
    (k2 = k ∧ j = v) ∨ lookupJob jobs k2 = some j := by
  by_cases hk : k2 = k
  · subst hk
    rw [lookupJob_setJob_self] at h
    exact Or.inl ⟨rfl, (Option.some.injEq _ _ ▸ h).symm⟩
  · rw [lookupJob_setJob_ne _ _ _ _ hk] at h
    exact Or.inr h

theorem lookupJob_delJob_self (jobs : List (String × Job)) (k : String) :
    lookupJob (delJob jobs k) k = none := by
  induction jobs with
  | nil => simp [delJob, lookupJob]
  | cons p ps ih =>
    by_cases h : p.1 = k
    · simpa [delJob, h] using ih
    · simp [delJob, lookupJob, h] at ih ⊢
      simpa [delJob] using ih

theorem countKey_delJob_self (jobs : List (String × Job)) (k : String) :
    countKey (delJob jobs k) k = 0 := by
  induction jobs with
  | nil => simp [delJob, countKey]
  | cons p ps ih =>
    by_cases h : p.1 = k
    · simp only [delJob] at ih ⊢
      simp [countKey, h] at ih ⊢
    · simp only [delJob] at ih ⊢
      simp [countKey, h] at ih ⊢

theorem setJob_of_lookup_none (jobs : List (String × Job)) (k : String) (v : Job)
    (h : lookupJob jobs k = none) : setJob jobs k v = jobs ++ [(k, v)] := by
  induction jobs with
  | nil => simp [setJob]
  | cons p ps ih =>
    by_cases hp : p.1 = k
    · simp [lookupJob, hp] at h
    · simp [lookupJob, hp] at h
      simp [setJob, hp, ih h]

theorem countKey_append_single (l : List (String × Job)) (k : String) (v : Job) :
    countKey (l ++ [(k, v)]) k = countKey l k + 1 := by
  simp [countKey, List.filter_append]

theorem countKey_eq_zero_of_lookup_none (jobs : List (String × Job)) (k : String)
    (h : lookupJob jobs k = none) : countKey jobs k = 0 := by
  induction jobs with
  | nil => simp [countKey]
  | cons p ps ih =>
    by_cases hp : p.1 = k
    · simp [lookupJob, hp] at h
    · simp [lookupJob, hp] at h
      simpa [countKey, hp] using ih h

theorem lookupJob_append_single_self (jobs : List (String × Job)) (k : String)
    (v : Job) (h : lookupJob jobs k = none) :
    lookupJob (jobs ++ [(k, v)]) k = some v := by
  induction jobs with
  | nil => simp [lookupJob]
  | cons p ps ih =>
    by_cases hp : p.1 = k
    · simp [lookupJob, hp] at h
    · simp [lookupJob, hp] at h
      simpa [lookupJob, hp] using ih h

theorem lookupJob_unregister_self (st : SchedState) (cid : String) :
    lookupJob (unregisterChannel st cid).jobs cid = none := by
  cases hj : lookupJob st.jobs cid with
  | none => simp only [unregisterChannel, hj]
  | some j => simp [unregisterChannel, hj, lookupJob_delJob_self]

theorem countKey_unregister_self (st : SchedState) (cid : String) :
    countKey (unregisterChannel st cid).jobs cid = 0 := by
  cases hj : lookupJob st.jobs cid with
  | none => simpa [unregisterChannel, hj] using countKey_eq_zero_of_lookup_none _ _ hj
  | some j => simp [unregisterChannel, hj, countKey_delJob_self]

theorem registerChannel_enabled_none (db : DB) (st : SchedState) (cid : String)
    (ch : Channel) (hfind : findChannel db cid = some ch)
    (hen : ch.sync_enabled = true) (hnone : lookupJob st.jobs cid = none) :
    registerChannel db st cid =
      { st with
          jobs := st.jobs ++ [(cid,
            { handle := st.nextHandle, channelId := cid,
              cronTime := jsOrDefault ch.sync_schedule "0 2 * * *",
              apiKey := ch.api_key })],
          nextHandle := st.nextHandle + 1 } := by
  simp [registerChannel, hfind, hen, hnone, setJob_of_lookup_none _ _ _ hnone]

theorem lookupJob_registerChannel_self (db : DB) (st : SchedState) (cid : String)
    (ch : Channel) (hfind : findChannel db cid = some ch)
    (hen : ch.sync_enabled = true) :
    lookupJob (registerChannel db st cid).jobs cid = some
      { handle := st.nextHandle, channelId := cid,
        cronTime := jsOrDefault ch.sync_schedule "0 2 * * *",
        apiKey := ch.api_key } := by
  cases hl : lookupJob st.jobs cid with
  | none => simp [registerChannel, hfind, hen, hl, lookupJob_setJob_self]
  | some j => simp [registerChannel, hfind, hen, hl, lookupJob_setJob_self]

/-- C8: register(entityId) for a nonexistent or disabled entity is a no-op
that signals no error: it installs no new trigger and returns normally,
leaving the scheduler state exactly as it was. -/
theorem C8_registerChannel_noop (db : DB) (st : SchedState) (cid : String)
    (h : findChannel db cid = none ∨
         ∃ ch, findChannel db cid = some ch ∧ ch.sync_enabled = false) :
    registerChannel db st cid = st := by
  rcases h with h | ⟨ch, hch, hdis⟩
  · simp [registerChannel, h]
  · simp [registerChannel, hch, hdis]

/-- C8 witness: a missing id (Z) and a disabled channel (D) both leave the
fresh scheduler state untouched. -/
theorem C8_registerChannel_noop_witness :
    registerChannel dbABC initialSchedState "Z" = initialSchedState ∧
    registerChannel dbABC initialSchedState "D" = initialSchedState :=
  ⟨C8_registerChannel_noop dbABC initialSchedState "Z" (Or.inl (by decide)),
   C8_registerChannel_noop dbABC initialSchedState "D"
     (Or.inr ⟨chD, by decide, rfl⟩)⟩

/-- C4: for an existing enabled entity, update(entityId) leaves exactly one
armed trigger for the entity (never zero or two), built from the current
recurrence expression with the fixed daily default when the expression is
absent, capturing the current api key; and the previously armed handle, if
any, had its stop invoked. -/
theorem C4_updateChannel_exactly_one (db : DB) (st : SchedState) (cid : String)
    (ch : Channel) (hfind : findChannel db cid = some ch)
    (hen : ch.sync_enabled = true) :
    countKey (updateChannel db st cid).jobs cid = 1 ∧
    (∃ j, lookupJob (updateChannel db st cid).jobs cid = some j ∧
       j.cronTime = jsOrDefault ch.sync_schedule "0 2 * * *" ∧
       j.apiKey = ch.api_key) ∧
    (∀ j0, lookupJob st.jobs cid = some j0 →
       j0.handle ∈ (updateChannel db st cid).stopped) := by
  have hnone := lookupJob_unregister_self st cid
  have hzero := countKey_unregister_self st cid
  rw [updateChannel, registerChannel_enabled_none db _ cid ch hfind hen hnone]
  refine ⟨?_, ?_, ?_⟩
  · simp only [countKey_append_single]
    omega
  · exact ⟨_, lookupJob_append_single_self _ _ _ hnone, rfl, rfl⟩
  · intro j0 h0
    simp only
    rw [unregisterChannel, h0]
    exact List.mem_cons_self _ _

/-- C4 witness: updating channel A (no recurrence configured) over a state
with an old armed job yields exactly one job, carrying the default daily
expression, and the old handle was stopped. -/
theorem C4_updateChannel_exactly_one_witness :
    countKey (updateChannel dbABC stForA "A").jobs "A" = 1 ∧
    (∃ j, lookupJob (updateChannel dbABC stForA "A").jobs "A" = some j ∧
       j.cronTime = jsOrDefault chA.sync_schedule "0 2 * * *" ∧
       j.apiKey = chA.api_key) ∧
    jobA0.handle ∈ (updateChannel dbABC stForA "A").stopped := by
  have h := C4_updateChannel_exactly_one dbABC stForA "A" chA (by decide) rfl
  exact ⟨h.1, h.2.1, h.2.2 jobA0 (by decide)⟩

theorem lookupJob_registerChannel_some (db : DB) (st : SchedState) (cid k : String)
    (j : Job) (h : lookupJob (registerChannel db st cid).jobs k = some j) :
    (k = cid ∧ ∃ ch, findChannel db cid = some ch ∧ ch.sync_enabled = true) ∨
    lookupJob st.jobs k = some j := by
  cases hf : findChannel db cid with
  | none =>
    rw [registerChannel, hf] at h
    exact Or.inr h
  | some ch =>
    cases hen : ch.sync_enabled with
    | false =>
      rw [registerChannel, hf] at h
      simp only [hen, Bool.not_false, if_true] at h
      exact Or.inr h
    | true =>
      cases hl : lookupJob st.jobs cid with
      | none =>
        rw [registerChannel, hf] at h
        simp only [hen, Bool.not_true, if_false, hl] at h
        rcases lookupJob_setJob_some _ _ _ _ _ h with ⟨hk, _⟩ | h2
        · exact Or.inl ⟨hk, ch, rfl, hen⟩
        · exact Or.inr h2
      | some j0 =>
        rw [registerChannel, hf] at h
        simp only [hen, Bool.not_true, if_false, hl] at h
        rcases lookupJob_setJob_some _ _ _ _ _ h with ⟨hk, _⟩ | h2
        · exact Or.inl ⟨hk, ch, rfl, hen⟩
        · exact Or.inr h2

theorem foldl_register_only_enabled (db : DB) (l : List Channel) (st : SchedState)
    (hst : ∀ k j, lookupJob st.jobs k = some j →
        ∃ ch, findChannel db k = some ch ∧ ch.sync_enabled = true) :
    ∀ k j,
      lookupJob (l.foldl (fun s ch => registerChannel db s ch.id) st).jobs k = some j →
      ∃ ch, findChannel db k = some ch ∧ ch.sync_enabled = true := by
  induction l generalizing st with
  | nil => exact hst
  | cons c cs ih =>
    intro k j h
    refine ih (registerChannel db st c.id) ?_ k j h
    intro k2 j2 h2
    rcases lookupJob_registerChannel_some db st c.id k2 j2 h2 with ⟨rfl, hch⟩ | h3
    · exact hch
    · exact hst k2 j2 h3

theorem find_first_of_nodup (l : List Channel) (ch : Channel) (hmem : ch ∈ l)
    (hnodup : (l.map Channel.id).Nodup) :
    l.find? (fun c => c.id == ch.id) = some ch := by
  induction l with
  | nil => cases hmem
  | cons a as ih =>
    rcases List.mem_cons.mp hmem with rfl | hmem2
    · simp [List.find?]
    · have hnotin : a.id ∉ as.map Channel.id := (List.nodup_cons.mp hnodup).1
      have hne : ¬(a.id = ch.id) := by
        intro he
        exact hnotin (he ▸ List.mem_map_of_mem Channel.id hmem2)
      rw [List.find?_cons_of_neg _ (by simpa using hne)]
      exact ih hmem2 (List.nodup_cons.mp hnodup).2

/-- C5: starting from the constructor state, after the scheduler reads the
store and registers every enabled channel, no entity with the enabled flag
off holds an armed trigger; moreover every armed trigger belongs to an
entity that was enabled in the store that was read. -/
theorem C5_disabled_without_trigger_after_init (db : DB) (ch : Channel)
    (hmem : ch ∈ db.channels) (hdis : ch.sync_enabled = false)
    (hnodup : (db.channels.map Channel.id).Nodup) :
    lookupJob (initAllChannels db initialSchedState).jobs ch.id = none ∧
    (∀ k j, lookupJob (initAllChannels db initialSchedState).jobs k = some j →
       ∃ ch2, findChannel db k = some ch2 ∧ ch2.sync_enabled = true) := by
  have honly : ∀ k j,
      lookupJob (initAllChannels db initialSchedState).jobs k = some j →
      ∃ ch2, findChannel db k = some ch2 ∧ ch2.sync_enabled = true := by
    refine foldl_register_only_enabled db (enabledChannels db) initialSchedState ?_
    intro k j h
    simp [initialSchedState, lookupJob] at h
  refine ⟨?_, honly⟩
  cases hl : lookupJob (initAllChannels db initialSchedState).jobs ch.id with
  | none => rfl
  | some j =>
    obtain ⟨ch2, hf, hen⟩ := honly ch.id j hl
    have hfirst : findChannel db ch.id = some ch :=
      find_first_of_nodup db.channels ch hmem hnodup
    rw [hfirst] at hf
    cases hf
    rw [hdis] at hen
    cases hen

/-- C5 witness: in the four-channel fixture, the disabled channel D has no
armed trigger after startup registration. -/
theorem C5_disabled_without_trigger_after_init_witness :
    lookupJob (initAllChannels dbABC initialSchedState).jobs chD.id = none :=
  (C5_disabled_without_trigger_after_init dbABC chD (by decide) rfl (by decide)).1

/-- C6: a firing of an armed recurring trigger whose pipeline call rejects
is caught by the callback and returns normally: the scheduler state is
untouched, so the trigger stays registered in the jobs map, the schedule
continues, and no other entity's trigger is affected. -/
theorem C6_fire_failure_keeps_trigger {α : Type} (pipeline : Pipeline α)
    (job : Job) (db : DB) (st : SchedState) :
    (fireTrigger pipeline job db st).2 = st ∧
    (∀ db1 e,
       pipeline SyncMode.incremental job.channelId job.apiKey db =
         (db1, Except.error e) →
       fireTrigger pipeline job db st = (db1, st)) ∧
    (∀ k, lookupJob (fireTrigger pipeline job db st).2.jobs k =
       lookupJob st.jobs k) := by
  have h2 : (fireTrigger pipeline job db st).2 = st := by
    unfold fireTrigger
    rcases hp : pipeline SyncMode.incremental job.channelId job.apiKey db
      with ⟨db1, r⟩
    cases r <;> simp
  refine ⟨h2, ?_, fun k => by rw [h2]⟩
  intro db1 e he
  unfold fireTrigger
  rw [he]

/-- C6 witness: firing a job with an always-rejecting pipeline leaves the
armed-jobs state exactly as it was. -/
theorem C6_fire_failure_keeps_trigger_witness :
    fireTrigger failPipe jobA0 dbRun stForA = (dbRun, stForA) :=
  (C6_fire_failure_keeps_trigger failPipe jobA0 dbRun stForA).2.1 dbRun "boom" rfl

/-- C7: triggerManual(mode, entityId) for an unknown id surfaces the
not-found error with the store untouched (no RunRecord written); for an
existing channel the pipeline runs — with no enabled-flag check — and the
call returns its outcome, or propagates its error. -/
theorem C7_triggerManualSync_single {α : Type} (pipeline : Pipeline α)
    (mode : SyncMode) (cid : String) (db : DB) :
    (findChannel db cid = none →
       triggerManualSync pipeline mode (some cid) db =
         (db, Except.error ("Channel " ++ cid ++ " not found"))) ∧
    (∀ ch, findChannel db cid = some ch →
       (∀ db1 r, pipeline mode ch.id ch.api_key db = (db1, Except.ok r) →
          triggerManualSync pipeline mode (some cid) db =
            (db1, Except.ok (ManualResult.single r))) ∧
       (∀ db1 e, pipeline mode ch.id ch.api_key db = (db1, Except.error e) →
          triggerManualSync pipeline mode (some cid) db =
            (db1, Except.error e))) := by
  constructor
  · intro h
    simp [triggerManualSync, h]
  · intro ch hch
    constructor
    · intro db1 r hp
      simp [triggerManualSync, hch, hp]
    · intro db1 e hp
      simp [triggerManualSync, hch, hp]

/-- C7 witness: the unknown id Z yields the not-found error with the store
unchanged, and the disabled channel D still runs and returns the pipeline
outcome. -/
theorem C7_triggerManualSync_single_witness :
    triggerManualSync okPipe SyncMode.full (some "Z") dbABC =
      (dbABC, Except.error ("Channel " ++ "Z" ++ " not found")) ∧
    triggerManualSync okPipe SyncMode.full (some "D") dbABC =
      (dbABC, Except.ok (ManualResult.single 7)) :=
  ⟨(C7_triggerManualSync_single okPipe SyncMode.full "Z" dbABC).1 (by decide),
   ((C7_triggerManualSync_single okPipe SyncMode.full "D" dbABC).2 chD
       (by decide)).1 dbABC 7 rfl⟩

/-- C1 counterexample: with a RunRecord for channel A already in state
running, a new invocation for A is not rejected — the run entry opens a
second record, so two records for A are running at once. -/
theorem C1_counterexample :
    (runningFor dbRun "A").length = 1 ∧
    (runningFor (orchestratorEntry dbRun "A" SyncMode.full 30) "A").length = 2 := by
  constructor <;> rfl

/-- C1 (amended): the code performs no already-running check — an
invocation for an entity that already has a RunRecord in state running is
accepted and opens a second running record, so at least two records for
the entity are simultaneously running afterwards. -/
theorem C1_amended_second_run_accepted (db : DB) (cid : String)
    (mode : SyncMode) (now : Nat) (h : 1 ≤ (runningFor db cid).length) :
    2 ≤ (runningFor (orchestratorEntry db cid mode now) cid).length := by
  unfold runningFor at h
  unfold runningFor orchestratorEntry
  rw [List.filter_append]
  simp only [List.filter_cons, List.filter_nil]
  simp only [beq_self_eq_true, Bool.and_self, if_true]
  simp only [List.length_append, List.length_cons, List.length_nil]
  omega

/-- C1 amended witness: the fixture store with a running record for A
accepts a second run for A. -/
theorem C1_amended_second_run_accepted_witness :
    2 ≤ (runningFor (orchestratorEntry dbRun "A" SyncMode.full 30) "A").length :=
  C1_amended_second_run_accepted dbRun "A" SyncMode.full 30 (by decide)

theorem syncAll_ok {α : Type} (pipeline : Pipeline α) (mode : SyncMode) :
    ∀ (l : List Channel) (db : DB) (n : Nat),
      (syncAll pipeline mode l db).2 = Except.ok n →
      n = l.length ∧ attemptedIds pipeline mode l db = l.map Channel.id := by
  intro l
  induction l with
  | nil =>
    intro db n h
    simp [syncAll] at h
    simp [attemptedIds, h.symm]
  | cons c cs ih =>
    intro db n h
    rcases hp : pipeline mode c.id c.api_key db with ⟨db1, r⟩
    cases r with
    | error e => simp [syncAll, hp] at h
    | ok a =>
      rcases hs : syncAll pipeline mode cs db1 with ⟨db2, r2⟩
      cases r2 with
      | error e => simp [syncAll, hp, hs] at h
      | ok m =>
        simp [syncAll, hp, hs] at h
        obtain ⟨hm, hatt⟩ := ih db1 m (by rw [hs])
        constructor
        · simp [List.length_cons, ← h, hm]
        · simp [attemptedIds, hp, hatt]

theorem attemptedIds_prefix {α : Type} (pipeline : Pipeline α) (mode : SyncMode) :
    ∀ (l : List Channel) (db : DB),
      attemptedIds pipeline mode l db <+: l.map Channel.id := by
  intro l
  induction l with
  | nil =>
    intro db
    simp [attemptedIds]
  | cons c cs ih =>
    intro db
    rcases hp : pipeline mode c.id c.api_key db with ⟨db1, r⟩
    cases r with
    | ok a =>
      simp only [attemptedIds, hp, List.map_cons]
      obtain ⟨t, ht⟩ := ih db1
      exact ⟨t, by simp [ht]⟩
    | error e =>
      simp only [attemptedIds, hp, List.map_cons]
      exact ⟨cs.map Channel.id, rfl⟩

/-- C2 counterexample: with enabled channels A, B, C and a pipeline that
raises on B, the aggregate call does not report 3 — it propagates the
error — and C is never attempted. -/
theorem C2_counterexample :
    (triggerManualSync failBPipe SyncMode.incremental none dbABC).2 =
      Except.error "boom" ∧
    attemptedIds failBPipe SyncMode.incremental (enabledChannels dbABC) dbABC =
      ["A", "B"] ∧
    (enabledChannels dbABC).map Channel.id = ["A", "B", "C"] := by
  refine ⟨rfl, rfl, rfl⟩

/-- C2 (amended): triggerManual(mode) with entityId omitted runs the
enabled entities sequentially in store order, but the loop aborts at the
first entity whose run fails: the call reports the count of enabled
entities exactly when every run succeeds (and then all were attempted),
while a failing run makes the call propagate that error, so the attempted
entities form only a prefix of the enabled list. -/
theorem C2_amended_syncAll_behavior {α : Type} (pipeline : Pipeline α)
    (mode : SyncMode) (db : DB) :
    (∀ n, (triggerManualSync pipeline mode none db).2 =
        Except.ok (ManualResult.all n) →
      n = (enabledChannels db).length ∧
      attemptedIds pipeline mode (enabledChannels db) db =
        (enabledChannels db).map Channel.id) ∧
    (∀ e, (triggerManualSync pipeline mode none db).2 = Except.error e →
      (syncAll pipeline mode (enabledChannels db) db).2 = Except.error e ∧
      attemptedIds pipeline mode (enabledChannels db) db <+:
        (enabledChannels db).map Channel.id) := by
  constructor
  · intro n h
    rcases hs : syncAll pipeline mode (enabledChannels db) db with ⟨db1, r⟩
    cases r with
    | ok m =>
      simp [triggerManualSync, hs] at h
      exact h ▸ syncAll_ok pipeline mode (enabledChannels db) db m (by rw [hs])
    | error e => simp [triggerManualSync, hs] at h
  · intro e h
    rcases hs : syncAll pipeline mode (enabledChannels db) db with ⟨db1, r⟩
    cases r with
    | ok m => simp [triggerManualSync, hs] at h
    | error e2 =>
      simp [triggerManualSync, hs] at h
      subst h
      exact ⟨rfl, attemptedIds_prefix pipeline mode (enabledChannels db) db⟩

/-- C2 amended witness: with an always-resolving pipeline the aggregate
call reports 3 and all of A, B, C were attempted. -/
theorem C2_amended_syncAll_behavior_witness :
    attemptedIds okPipe SyncMode.incremental (enabledChannels dbABC) dbABC =
      ["A", "B", "C"] :=
  (((C2_amended_syncAll_behavior okPipe SyncMode.incremental dbABC).1 3
      rfl).2).trans (by rfl)

/-- C3: a cancel request records the flag in the registry (the targeted
entity, or the all-entities intent when the id is omitted), moves every
record still marked running in scope to cancelled with error detail
"Cancelled by user" and completed_at stamped, and never moves any record
to completed or failed. -/
theorem C3_cancelHandler_spec (now : Nat) (cid : Option String)
    (reg : CancellationRegistry) (db : DB) (i : Nat) (r : RunRecord)
    (hr : db.sync_log[i]? = some r) :
    (∀ c, cid = some c → c ∈ (cancelHandler now cid reg db).1.flags) ∧
    (cid = none → (cancelHandler now cid reg db).1.allRequested = true) ∧
    (r.status = RunStatus.running → (cid = none ∨ cid = some r.channel_id) →
       (cancelHandler now cid reg db).2.sync_log[i]? = some (cancelRecord now r) ∧
       (cancelRecord now r).status = RunStatus.cancelled ∧
       (cancelRecord now r).errors = some "Cancelled by user" ∧
       (cancelRecord now r).completed_at = some now) ∧
    (∀ r2, (cancelHandler now cid reg db).2.sync_log[i]? = some r2 →
       (r2.status = RunStatus.completed → r.status = RunStatus.completed) ∧
       (r2.status = RunStatus.failed → r.status = RunStatus.failed)) := by
  have hmap : ∀ (f : RunRecord → RunRecord),
      (db.sync_log.map f)[i]? = some (f r) := by
    intro f
    rw [List.getElem?_map, hr]
    rfl
  cases cid with
  | none =>
    have hlog : (cancelHandler now none reg db).2.sync_log =
        db.sync_log.map (fun r0 =>
          if r0.status == RunStatus.running then cancelRecord now r0 else r0) := rfl
    refine ⟨?_, ?_, ?_, ?_⟩
    · intro c hc
      cases hc
    · intro _
      rfl
    · intro hrun _
      refine ⟨?_, rfl, rfl, rfl⟩
      rw [hlog, hmap, if_pos (by simp [hrun])]
    · intro r2 h2
      rw [hlog, hmap] at h2
      have hr2 : (if r.status == RunStatus.running then cancelRecord now r else r)
          = r2 := Option.some.inj h2
      by_cases hrun : r.status = RunStatus.running
      · rw [if_pos (by simp [hrun])] at hr2
        subst hr2
        refine ⟨?_, ?_⟩ <;> intro h3 <;> simp [cancelRecord] at h3
      · rw [if_neg (by simp [hrun])] at hr2
        subst hr2
        exact ⟨id, id⟩
  | some c =>
    have hlog : (cancelHandler now (some c) reg db).2.sync_log =
        db.sync_log.map (fun r0 =>
          if r0.channel_id == c && r0.status == RunStatus.running then
            cancelRecord now r0 else r0) := rfl
    refine ⟨?_, ?_, ?_, ?_⟩
    · intro c2 hc2
      injection hc2 with h
      subst h
      exact List.mem_cons_self _ _
    · intro hc
      cases hc
    · intro hrun hscope
      have hc : c = r.channel_id := by
        rcases hscope with h | h
        · cases h
        · exact Option.some.inj h
      refine ⟨?_, rfl, rfl, rfl⟩
      rw [hlog, hmap, if_pos (by simp [hrun, hc])]
    · intro r2 h2
      rw [hlog, hmap] at h2
      have hr2 : (if r.channel_id == c && r.status == RunStatus.running then
          cancelRecord now r else r) = r2 := Option.some.inj h2
      by_cases hcond : (r.channel_id == c && r.status == RunStatus.running) = true
      · rw [if_pos hcond] at hr2
        subst hr2
        refine ⟨?_, ?_⟩ <;> intro h3 <;> simp [cancelRecord] at h3
      · rw [if_neg hcond] at hr2
        subst hr2
        exact ⟨id, id⟩

/-- C3 witness: cancelling channel A in the fixture flags A in the
registry and moves its running record to cancelled with the fixed error
detail and a completion timestamp. -/
theorem C3_cancelHandler_spec_witness :
    "A" ∈ (cancelHandler 50 (some "A") reg0 dbRun).1.flags ∧
    (cancelHandler 50 (some "A") reg0 dbRun).2.sync_log[0]? =
      some (cancelRecord 50 recA1) := by
  have h := C3_cancelHandler_spec 50 (some "A") reg0 dbRun 0 recA1 rfl
  exact ⟨h.1 "A" rfl, (h.2.2.1 rfl (Or.inr rfl)).1⟩

theorem mem_insertByStartedDesc (a x : RunRecord) (s : List RunRecord) :
    x ∈ insertByStartedDesc a s ↔ x = a ∨ x ∈ s := by
  induction s with
  | nil => simp [insertByStartedDesc]
  | cons y ys ih =>
    by_cases h : a.started_at ≤ y.started_at
    · simp only [insertByStartedDesc, if_pos h, List.mem_cons, ih]
      tauto
    · simp only [insertByStartedDesc, if_neg h, List.mem_cons]

theorem length_insertByStartedDesc (a : RunRecord) (s : List RunRecord) :
    (insertByStartedDesc a s).length = s.length + 1 := by
  induction s with
  | nil => rfl
  | cons y ys ih =>
    by_cases h : a.started_at ≤ y.started_at <;>
      simp [insertByStartedDesc, h, ih]

theorem length_sortByStartedDesc (l : List RunRecord) :
    (sortByStartedDesc l).length = l.length := by
  induction l with
  | nil => rfl
  | cons a as ih => simp [sortByStartedDesc, length_insertByStartedDesc, ih]

theorem sortByStartedDesc_head_max :
    ∀ (l : List RunRecord) (r : RunRecord) (rest : List RunRecord),
      sortByStartedDesc l = r :: rest →
      r ∈ l ∧ ∀ x ∈ l, x.started_at ≤ r.started_at := by
  intro l
  induction l with
  | nil =>
    intro r rest h
    simp [sortByStartedDesc] at h
  | cons a as ih =>
    intro r rest h
    rw [sortByStartedDesc] at h
    cases hs : sortByStartedDesc as with
    | nil =>
      have has : as = [] := by
        have hlen := length_sortByStartedDesc as
        rw [hs] at hlen
        exact List.eq_nil_of_length_eq_zero hlen.symm
      rw [hs] at h
      simp only [insertByStartedDesc] at h
      obtain ⟨rfl, rfl⟩ := List.cons.inj h
      refine ⟨List.mem_cons_self _ _, ?_⟩
      intro x hx
      rcases List.mem_cons.mp hx with rfl | hx2
      · exact Nat.le_refl _
      · rw [has] at hx2
        cases hx2
    | cons h0 t0 =>
      obtain ⟨hmem0, hmax0⟩ := ih h0 t0 hs
      rw [hs] at h
      by_cases hc : a.started_at ≤ h0.started_at
      · rw [insertByStartedDesc, if_pos hc] at h
        obtain ⟨rfl, -⟩ := List.cons.inj h
        refine ⟨List.mem_cons_of_mem _ hmem0, ?_⟩
        intro x hx
        rcases List.mem_cons.mp hx with rfl | hx2
        · exact hc
        · exact hmax0 x hx2
      · rw [insertByStartedDesc, if_neg hc] at h
        obtain ⟨rfl, -⟩ := List.cons.inj h
        refine ⟨List.mem_cons_self _ _, ?_⟩
        intro x hx
        rcases List.mem_cons.mp hx with rfl | hx2
        · exact Nat.le_refl _
        · exact Nat.le_trans (hmax0 x hx2) (Nat.le_of_lt (Nat.lt_of_not_le hc))

/-- C9 counterexample: with two records in state running, the progress
endpoint carries only one of them — it does not return every running
record, and it accepts no entity scope. -/
theorem C9_counterexample :
    (dbTwoRunning.sync_log.filter
        (fun r => r.status == RunStatus.running)).length = 2 ∧
    (responseRecords (progressHandler dbTwoRunning)).length = 1 := by
  constructor <;> rfl

/-- C9 (amended): the progress endpoint accepts no entity scope and
returns at most one record: its running flag is true exactly when some
record is in state running, and the record it carries, when present, is a
running record of the log whose started_at is maximal among all running
records. -/
theorem C9_amended_progress_spec (db : DB) :
    (responseRecords (progressHandler db)).length ≤ 1 ∧
    ((progressHandler db).running = true ↔
       ∃ r ∈ db.sync_log, r.status = RunStatus.running) ∧
    (∀ r, (progressHandler db).sync = some r →
       r ∈ db.sync_log ∧ r.status = RunStatus.running ∧
       ∀ r2 ∈ db.sync_log, r2.status = RunStatus.running →
         r2.started_at ≤ r.started_at) := by
  cases hs : sortByStartedDesc
      (db.sync_log.filter fun r => r.status == RunStatus.running) with
  | nil =>
    have hfilter : db.sync_log.filter
        (fun r => r.status == RunStatus.running) = [] := by
      have hlen := length_sortByStartedDesc
        (db.sync_log.filter fun r => r.status == RunStatus.running)
      rw [hs] at hlen
      exact List.eq_nil_of_length_eq_zero hlen.symm
    refine ⟨?_, ?_, ?_⟩
    · simp [progressHandler, hs, responseRecords]
    · simp only [progressHandler, hs]
      constructor
      · intro h
        cases h
      · rintro ⟨r, hrm, hrs⟩
        have hmemf : r ∈ db.sync_log.filter
            (fun r => r.status == RunStatus.running) :=
          List.mem_filter.mpr ⟨hrm, by simp [hrs]⟩
        rw [hfilter] at hmemf
        cases hmemf
    · intro r hr
      simp only [progressHandler, hs] at hr
      cases hr
  | cons r0 t0 =>
    obtain ⟨hm, hmax⟩ := sortByStartedDesc_head_max _ r0 t0 hs
    have hm2 := List.mem_filter.mp hm
    refine ⟨?_, ?_, ?_⟩
    · simp [progressHandler, hs, responseRecords]
    · simp only [progressHandler, hs]
      exact ⟨fun _ => ⟨r0, hm2.1, by simpa using hm2.2⟩, fun _ => trivial⟩
    · intro r hr
      simp only [progressHandler, hs] at hr
      obtain rfl := Option.some.inj hr
      refine ⟨hm2.1, by simpa using hm2.2, ?_⟩
      intro r2 h2m h2s
      exact hmax r2 (List.mem_filter.mpr ⟨h2m, by simp [h2s]⟩)

/-- C9 amended witness: on the two-running-records fixture the response
holds at most one record and the running flag is set. -/
theorem C9_amended_progress_spec_witness :
    (responseRecords (progressHandler dbTwoRunning)).length ≤ 1 ∧
    ((progressHandler dbTwoRunning).running = true ↔
       ∃ r ∈ dbTwoRunning.sync_log, r.status = RunStatus.running) :=
  ⟨(C9_amended_progress_spec dbTwoRunning).1,
   (C9_amended_progress_spec dbTwoRunning).2.1⟩

theorem applyPatch_id (p : ChannelPatch) (ch : Channel) :
    (applyPatch p ch).id = ch.id := by
  unfold applyPatch
  cases p.syncEnabled <;> cases p.syncSchedule <;> cases p.apiKey <;> rfl

theorem applyPatch_apiKey (k : String) (ch : Channel) :
    (applyPatch (apiKeyPatch k) ch).api_key = k := rfl

theorem find_map_patch (l : List Channel) (id : String) (p : ChannelPatch)
    (ch2 : Channel)
    (h : (l.map (fun ch => if ch.id == id then applyPatch p ch else ch)).find?
        (fun c => c.id == id) = some ch2) :
    ∃ ch, ch.id = id ∧ ch2 = applyPatch p ch := by
  induction l with
  | nil => simp at h
  | cons a as ih =>
    by_cases ha : a.id = id
    · rw [List.map_cons, if_pos (by simp [ha]),
        List.find?_cons_of_pos _ (by simp [applyPatch_id, ha])] at h
      exact ⟨a, ha, (Option.some.inj h).symm⟩
    · rw [List.map_cons, if_neg (by simp [ha]),
        List.find?_cons_of_neg _ (by simp [ha])] at h
      exact ih h

theorem fireTrigger_db {α : Type} (pipeline : Pipeline α) (j : Job) (db2 : DB)
    (st : SchedState) :
    (fireTrigger pipeline j db2 st).1 =
      (pipeline SyncMode.incremental j.channelId j.apiKey db2).1 := by
  unfold fireTrigger
  rcases h : pipeline SyncMode.incremental j.channelId j.apiKey db2 with ⟨d, r⟩
  cases r <;> simp

/-- C10: over a trigger registered when the channel row carried api key
ch0.api_key, a PUT whose body holds only a new apiKey value neither
re-registers the trigger (the scheduler state is returned untouched) nor
changes the captured credential: the stored row now carries the new key,
yet every subsequent firing still calls the pipeline with the key read at
registration time. -/
theorem C10_apiKey_only_update_stale_credential {α : Type}
    (pipeline : Pipeline α) (db0 db : DB) (st0 : SchedState) (cid k : String)
    (ch0 ch : Channel) (hreg : findChannel db0 cid = some ch0)
    (hen : ch0.sync_enabled = true) (hfind : findChannel db cid = some ch) :
    (putChannel db (registerChannel db0 st0 cid) cid (apiKeyPatch k)).2.1 =
      registerChannel db0 st0 cid ∧
    (∃ j, lookupJob (putChannel db (registerChannel db0 st0 cid) cid
          (apiKeyPatch k)).2.1.jobs cid = some j ∧
       j.apiKey = ch0.api_key ∧
       (∀ db2, (fireTrigger pipeline j db2 (registerChannel db0 st0 cid)).1 =
          (pipeline SyncMode.incremental j.channelId ch0.api_key db2).1)) ∧
    (∀ ch2, findChannel (putChannel db (registerChannel db0 st0 cid) cid
          (apiKeyPatch k)).1 cid = some ch2 → ch2.api_key = k) := by
  have hput : (putChannel db (registerChannel db0 st0 cid) cid
      (apiKeyPatch k)).2.1 = registerChannel db0 st0 cid := by
    simp [putChannel, hfind, apiKeyPatch]
  have hdb1 : (putChannel db (registerChannel db0 st0 cid) cid
      (apiKeyPatch k)).1 =
      { db with channels := db.channels.map (fun c =>
          if c.id == cid then applyPatch (apiKeyPatch k) c else c) } := by
    simp [putChannel, hfind, apiKeyPatch]
  refine ⟨hput, ?_, ?_⟩
  · refine ⟨{ handle := st0.nextHandle, channelId := cid,
              cronTime := jsOrDefault ch0.sync_schedule "0 2 * * *",
              apiKey := ch0.api_key }, ?_, rfl, ?_⟩
    · rw [hput]
      exact lookupJob_registerChannel_self db0 st0 cid ch0 hreg hen
    · intro db2
      exact fireTrigger_db pipeline _ db2 (registerChannel db0 st0 cid)
  · intro ch2 h2
    rw [hdb1] at h2
    obtain ⟨ch3, -, rfl⟩ := find_map_patch db.channels cid (apiKeyPatch k) ch2 h2
    exact applyPatch_apiKey k ch3

/-- C10 witness: registering channel A (key keyA), then a PUT carrying
only a new key, leaves the scheduler state untouched while the stored row
carries the new key. -/
theorem C10_apiKey_only_update_stale_credential_witness :
    (putChannel dbABC (registerChannel dbABC initialSchedState "A") "A"
        (apiKeyPatch "newkey")).2.1 =
      registerChannel dbABC initialSchedState "A" ∧
    (∀ ch2, findChannel (putChannel dbABC
          (registerChannel dbABC initialSchedState "A") "A"
          (apiKeyPatch "newkey")).1 "A" = some ch2 →
       ch2.api_key = "newkey") := by
  have h := C10_apiKey_only_update_stale_credential okPipe dbABC dbABC
    initialSchedState "A" "newkey" chA chA (by decide) rfl (by decide)
  exact ⟨h.1, h.2.2⟩

end YTArchiver
